import Mathlib

/-!
Verification development for the biotech lead-generation pipeline
(`biotech_main.py`).  The Python source is shallowly embedded: every
definition below is translated from a concrete place in the source file
(line numbers cited in the doc comments).  Python strings are modelled as
Lean `String` operated on through their character lists, Python ints as
`Nat` (all integers appearing in the scoring path are non-negative: regex
digit runs and non-negative bonuses), the process-wide mutable
`quota_exceeded` flag is threaded explicitly as state, and external
collaborators (web search, the generative model, the citation database) are
oracle inputs whose results are parameters.
-/

/-! ### Python string primitives (character-list based, so they evaluate by kernel reduction) -/

/-- Python `s.lower()`, restricted to the ASCII case mapping that
`Char.toLower` implements; all literals in the source are ASCII. -/
def pyLower (s : String) : String := ⟨s.data.map Char.toLower⟩

/-- Python `s.replace(' ', '')`: removes every space character. -/
def pyReplaceSpace (s : String) : String := ⟨s.data.filter (fun c => c ≠ ' ')⟩

/-- Python `s.strip()`: drops leading and trailing whitespace. -/
def pyStrip (s : String) : String :=
  ⟨((s.data.dropWhile Char.isWhitespace).reverse.dropWhile Char.isWhitespace).reverse⟩

/-- Python `s.split()` (no separator): split on whitespace runs, dropping empties. -/
def pySplitWs (s : String) : List String :=
  ((s.data.splitOnP (fun c => c.isWhitespace)).map (fun l => String.mk l)).filter
    (fun t => t ≠ "")

/-- Python `s.split(',')`: split on each comma, keeping empty segments. -/
def pySplitComma (s : String) : List String :=
  (s.data.splitOn ',').map (fun l => String.mk l)

/-- Python `sub in s` substring containment. -/
def pyContains (s sub : String) : Bool :=
  s.data.tails.any (fun t => sub.data.isPrefixOf t)

/-- Numeric value of a digit run (Python `int` applied to a string of digits). -/
def digitsVal (cs : List Char) : Nat :=
  cs.foldl (fun a c => a * 10 + (c.toNat - 48)) 0

/-- First maximal digit run in a character list, if any
(Python `re.search(r'\d+', text)`). -/
def firstNat? : List Char → Option Nat
  | [] => none
  | c :: cs =>
    if c.isDigit then some (digitsVal (c :: cs.takeWhile (fun d => d.isDigit)))
    else firstNat? cs

/-- First integer found in `s`, else `0` (lines 243-247 of the source). -/
def firstNat (s : String) : Nat := (firstNat? s.data).getD 0

/-! ### Extraction-service state (the `MODEL` global and the `quota_exceeded` flag, lines 21-34) -/

/-- Process-wide extraction state: whether a model was found at startup
(`MODEL is not None`) and the global `quota_exceeded` boolean (line 34). -/
structure ExtState where
  modelAvailable : Bool
  quota_exceeded : Bool
deriving DecidableEq, Repr

/-- Outcome of one `MODEL.generate_content` call followed by response parsing:
either a successfully parsed payload or an exception message. -/
inductive LLMReply (α : Type) where
  | ok (value : α)
  | exn (msg : String)

/-- Classification of an exception message as a rate-limit/quota failure:
`'429' in str(e) or 'quota' in str(e).lower()` (lines 101, 176, 250). -/
def isQuotaError (msg : String) : Bool :=
  pyContains msg "429" || pyContains (pyLower msg) "quota"

/-- State update performed inside each `except` block: set `quota_exceeded`
when the message carries a quota signal (lines 100-102, 174-177, 248-251). -/
def applyQuota (st : ExtState) (msg : String) : ExtState :=
  if isQuotaError msg then { st with quota_exceeded := true } else st

/-! ### Data model: the person dict at its three stages of enrichment -/

/-- Raw lead record produced by the identification stage. -/
structure RawLead where
  name : String
  title : String
  company : String
  location : String
  source : String
  hasRecentPaper : Bool
deriving DecidableEq, Repr

/-- Enriched lead record: the person dict as it enters Stage 3 (the raw
fields plus the two contact fields set by `enrich_person`). -/
structure EnrichedLead where
  name : String
  title : String
  company : String
  location : String
  source : String
  hasRecentPaper : Bool
  linkedin : String
  email : String
deriving DecidableEq, Repr

/-- Scored lead record: the person dict after Stage 3 assigned `score`. -/
structure ScoredLead where
  name : String
  title : String
  company : String
  location : String
  source : String
  hasRecentPaper : Bool
  linkedin : String
  email : String
  score : Nat
deriving DecidableEq, Repr

/-- Structured object requested from the model at the enrichment site
(lines 158-162): each key may be null. -/
structure ContactInfo where
  linkedin : Option String
  email : Option String
  location : Option String
deriving DecidableEq, Repr

/-- Author entry of a bibliographic record: the optional ForeName/LastName
keys and the affiliation string (empty when absent, line 61). -/
structure Author where
  foreName : Option String
  lastName : Option String
  affiliation : String
deriving DecidableEq, Repr

/-- Bibliographic record as consumed by the pipeline. -/
structure Paper where
  title : String
  authors : List Author
deriving DecidableEq, Repr

/-! ### The three guarded extraction call sites -/

/-- The guarded model call of the name-extraction site (lines 84-105): a
successfully parsed JSON array gives the name list; an exception yields `[]`
and may set the quota flag; with no model or quota exhausted, `[]` without a
call.  Returns (names, new state, whether a call was attempted). -/
def llmNames (st : ExtState) (reply : LLMReply (List String)) :
    List String × ExtState × Bool :=
  if st.modelAvailable && !st.quota_exceeded then
    match reply with
    | .ok ns => (ns, st, true)
    | .exn msg => ([], applyQuota st msg, true)
  else ([], st, false)

/-- The guarded model call of the enrichment site (lines 149-184): a parsed
JSON object gives the three optional fields; an exception yields all-null and
may set the quota flag; with no model or quota exhausted, all-null without a
call.  Returns (info, new state, whether a call was attempted). -/
def llmContact (st : ExtState) (reply : LLMReply ContactInfo) :
    ContactInfo × ExtState × Bool :=
  if st.modelAvailable && !st.quota_exceeded then
    match reply with
    | .ok info => (info, st, true)
    | .exn msg => (⟨none, none, none⟩, applyQuota st msg, true)
  else (⟨none, none, none⟩, st, false)

/-- The guarded model call of the scoring site (lines 221-254): when a model
is configured and the quota flag is clear, the response text is stripped and
its first integer taken (else `0`); an exception yields `0` and may set the
quota flag.  Returns (score, new state, whether a call was attempted). -/
def llmScore (st : ExtState) (reply : LLMReply String) : Nat × ExtState × Bool :=
  if st.modelAvailable && !st.quota_exceeded then
    match reply with
    | .ok text => (firstNat (pyStrip text), st, true)
    | .exn msg => (0, applyQuota st msg, true)
  else (0, st, false)

/-! ### Identification stage: conference branch (`scrape_conference_attendees`, lines 71-121) -/

/-- One leftmost match of the pattern `[A-Z][a-z]+ [A-Z][a-z]+` starting at the
head of the character list: an uppercase letter, a maximal nonempty lowercase
run, a space, an uppercase letter, a maximal nonempty lowercase run.  Returns
the matched characters and the remaining input after the match. -/
def matchCapPair : List Char → Option (List Char × List Char)
  | [] => none
  | c :: rest =>
    if c.isUpper then
      let run1 := rest.takeWhile (fun d => d.isLower)
      if run1.isEmpty then none
      else
        match rest.drop run1.length with
        | ' ' :: d :: rest2 =>
          if d.isUpper then
            let run2 := rest2.takeWhile (fun e => e.isLower)
            if run2.isEmpty then none
            else some (c :: run1 ++ ' ' :: d :: run2, rest2.drop run2.length)
          else none
        | _ => none
    else none

/-- Python `re.findall(r'[A-Z][a-z]+ [A-Z][a-z]+', ...)` over a character
list (line 109): scan left to right, collecting non-overlapping leftmost
matches.  `fuel` bounds the recursion; each step consumes at least one
character, so `fuel = cs.length` is enough. -/
def findCapPairs : Nat → List Char → List String
  | 0, _ => []
  | _, [] => []
  | fuel + 1, c :: rest =>
    match matchCapPair (c :: rest) with
    | some (m, rest2) => String.mk m :: findCapPairs fuel rest2
    | none => findCapPairs fuel rest

/-- Heuristic name fallback (lines 107-110): accumulate the regex matches of
every snippet, deduplicate, truncate to 20.  Python materialises the
deduplicated collection via `list(set(names))`, whose order is unspecified;
it is modelled as `List.dedup`. -/
def extract_names (snippets : List String) : List String :=
  ((snippets.foldl (fun acc s => acc ++ findCapPairs s.data.length s.data) []).dedup).take 20

/-- Conference attendee record (lines 112-120), with `has_recent_paper`
set to `False` by the pipeline at line 323. -/
def mkConferenceLead (name : String) : RawLead :=
  { name := name, title := "Speaker", company := "Unknown", location := "Unknown",
    source := "Conference", hasRecentPaper := false }

/-- `scrape_conference_attendees` (lines 71-121, plus line 323): model-path
names when available, the heuristic fallback when the name list is empty
(`if not names:`, line 107), one attendee record per name. -/
def scrape_conference_attendees (st : ExtState) (reply : LLMReply (List String))
    (snippets : List String) : List RawLead × ExtState × Bool :=
  let res := llmNames st reply
  let names := if res.1.isEmpty then extract_names snippets else res.1
  (names.map mkConferenceLead, res.2.1, res.2.2)

/-! ### Identification stage: citation branch (`fetch_paper_details` lines 50-69, pipeline lines 306-318) -/

/-- Location parsed from an affiliation string (lines 62-67): the last two
comma-separated segments, stripped and joined, when the affiliation is
non-empty and has at least two segments; else `"Unknown"`. -/
def authorLocation (affil : String) : String :=
  if affil ≠ "" then
    let parts := pySplitComma affil
    if parts.length > 1 then
      pyStrip (parts.getD (parts.length - 2) "") ++ ", " ++ pyStrip (parts.getLast?.getD "")
    else "Unknown"
  else "Unknown"

/-- Citation-derived lead (lines 310-317): title `"Researcher"`, company the
first comma-segment of the affiliation when the affiliation is non-empty
(else `"Unknown"`), source `"PubMed"`, `has_recent_paper = True`. -/
def mkCitationLead (name affil location : String) : RawLead :=
  { name := name
    title := "Researcher"
    company := if affil ≠ "" then (pySplitComma affil).headD "" else "Unknown"
    location := location
    source := "PubMed"
    hasRecentPaper := true }

/-- Lead derived from one author (lines 58-60 and 309-318): present only when
both name keys are present; the name is `"{ForeName} {LastName}"`. -/
def authorLead (a : Author) : Option RawLead :=
  match a.foreName, a.lastName with
  | some f, some l =>
    some (mkCitationLead (f ++ " " ++ l) a.affiliation (authorLocation a.affiliation))
  | _, _ => none

/-- All leads of one paper, in author order (lines 57-68, 309-318). -/
def paperLeads (p : Paper) : List RawLead :=
  p.authors.filterMap authorLead

/-- The citation loop of the pipeline (lines 306-318): `fetch_paper_details`
is called for each identifier with no try/except, so any failure propagates
and aborts the remainder of the loop.  Failures are modelled with `Except`. -/
def identification_loop (fetch : Nat → Except String Paper) :
    List Nat → Except String (List RawLead)
  | [] => .ok []
  | pmid :: rest =>
    match fetch pmid with
    | .error e => .error e
    | .ok paper =>
      match identification_loop fetch rest with
      | .error e => .error e
      | .ok tail => .ok (paperLeads paper ++ tail)

/-! ### Enrichment stage (`enrich_person`, lines 123-190) -/

/-- Synthesized profile URL (line 186):
`https://linkedin.com/in/` followed by the name with spaces removed,
lowercased. -/
def synthLinkedin (name : String) : String :=
  "https://linkedin.com/in/" ++ pyLower (pyReplaceSpace name)

/-- Synthesized email (line 187):
`{first_token.lower()}.{last_token.lower()}@{company_without_spaces.lower()}.com`.
When the name has no whitespace-separated tokens, `name.split()[0]` raises
`IndexError` in the source; that is modelled as `none`. -/
def synthEmail (name company : String) : Option String :=
  match pySplitWs name with
  | [] => none
  | t :: rest =>
    some (pyLower t ++ "." ++ pyLower (rest.getLastD t) ++ "@" ++
      pyLower (pyReplaceSpace company) ++ ".com")

/-- Python `x or fallback` over an optional string, where the empty string is
falsy (lines 186-187). -/
def pyOrStr : Option String → String → String
  | some s, d => if s = "" then d else s
  | none, d => d

/-- `enrich_person` (lines 123-190): obtains the contact object under the
quota guard, then fills `linkedin` and `email` with `or`-fallbacks and
overwrites `location` only when a truthy location was extracted
(lines 186-189).  The result is `none` exactly when the email fallback is
needed and the name has no tokens (uncaught `IndexError` in the source).
Returns (enriched lead, new state, whether a call was attempted). -/
def enrich_person (st : ExtState) (reply : LLMReply ContactInfo) (p : RawLead) :
    Option EnrichedLead × ExtState × Bool :=
  let res := llmContact st reply
  let info := res.1
  let linkedin := pyOrStr info.linkedin (synthLinkedin p.name)
  let emailOpt :=
    match info.email with
    | some e => if e = "" then synthEmail p.name p.company else some e
    | none => synthEmail p.name p.company
  let location :=
    match info.location with
    | some loc => if loc = "" then p.location else loc
    | none => p.location
  (emailOpt.map (fun email =>
      { name := p.name, title := p.title, company := p.company, location := location,
        source := p.source, hasRecentPaper := p.hasRecentPaper,
        linkedin := linkedin, email := email }),
   res.2.1, res.2.2)

/-! ### Scoring (`calculate_score`, lines 192-267) -/

/-- Keyword list of the title bonus (line 257). -/
def titleKeywords : List String :=
  ["toxicology", "safety", "hepatic", "3d", "preclinical", "director", "head"]

/-- Hub-location list of the location bonus (line 262). -/
def hubLocations : List String :=
  ["boston", "cambridge", "san francisco", "basel", "london"]

/-- The fallback block of `calculate_score` (lines 256-267), applied to the
model-derived base score `s0` and the locals `title`/`location` (already
lowercased once at lines 194-196; the hub check lowercases `location` a
second time, as line 262 does). -/
def score_from (s0 : Nat) (title location : String) (funding : List String)
    (hasPaper : Bool) : Nat :=
  let s1 := if titleKeywords.any (fun w => pyContains title w) then s0 + 30 else s0
  let s2 := if funding.any (fun s =>
      pyContains (pyLower s) "series" || pyContains (pyLower s) "raised") then s1 + 20 else s1
  let s3 := s2 + 15
  let s4 := if hubLocations.any (fun hub => pyContains (pyLower location) hub) then s3 + 10 else s3
  let s5 := if hasPaper then s4 + 40 else s4
  min s5 100

/-- `calculate_score` (lines 192-267): lowercases title and location
(lines 194-196), obtains the model score under the quota guard
(lines 221-254), then applies the additive fallback block and the final
`min(score, 100)` clamp (lines 256-267).  The funding snippets are an input
(the web-search collaborator result, lines 199-203). -/
def calculate_score (st : ExtState) (reply : LLMReply String) (p : EnrichedLead)
    (funding : List String) : Nat × ExtState × Bool :=
  let res := llmScore st reply
  (score_from res.1 (pyLower p.title) (pyLower p.location) funding p.hasRecentPaper,
   res.2.1, res.2.2)

/-- Modelled from the spec (section 4.2): the heuristic rule-set total as a
plain sum of independent bonuses over already-lowercased title/location.
Used to compare the additive structure of `calculate_score` against the
specified heuristic floor. -/
def heuristic_floor (title location : String) (funding : List String)
    (hasPaper : Bool) : Nat :=
  (if titleKeywords.any (fun w => pyContains title w) then 30 else 0) +
  (if funding.any (fun s =>
      pyContains (pyLower s) "series" || pyContains (pyLower s) "raised") then 20 else 0) +
  15 +
  (if hubLocations.any (fun hub => pyContains (pyLower location) hub) then 10 else 0) +
  (if hasPaper then 40 else 0)

/-- Dashboard minimum-score filter (line 367):
`[lead for lead in enriched_leads if lead['score'] >= min_score]`. -/
def min_score_filter (minScore : Nat) (leads : List ScoredLead) : List ScoredLead :=
  leads.filter (fun l => minScore ≤ l.score)

/-! ### Quota flag across the run: the three extraction call sites as a trace -/

/-- One potential extraction call during a pipeline run, tagged by call site:
conference name extraction (lines 84-105), enrichment (lines 149-184), or
scoring (lines 221-254).  Each carries the oracle reply the model would give
and the site inputs. -/
inductive PipeCall where
  | names (reply : LLMReply (List String)) (snippets : List String)
  | enrich (reply : LLMReply ContactInfo) (p : RawLead)
  | score (reply : LLMReply String) (p : EnrichedLead) (funding : List String)

/-- State transition and attempted-flag of one call-site execution. -/
def stepState (st : ExtState) : PipeCall → ExtState × Bool
  | .names reply snippets =>
    ((scrape_conference_attendees st reply snippets).2.1,
     (scrape_conference_attendees st reply snippets).2.2)
  | .enrich reply p =>
    ((enrich_person st reply p).2.1, (enrich_person st reply p).2.2)
  | .score reply p funding =>
    ((calculate_score st reply p funding).2.1, (calculate_score st reply p funding).2.2)

/-- Per-call attempted flags along a run. -/
def traceAttempts : ExtState → List PipeCall → List Bool
  | _, [] => []
  | st, c :: cs => (stepState st c).2 :: traceAttempts (stepState st c).1 cs

/-- Final extraction state after a run. -/
def traceFinal : ExtState → List PipeCall → ExtState
  | st, [] => st
  | st, c :: cs => traceFinal (stepState st c).1 cs

/-! ### Ranking: stable descending sort by score (lines 349-350) -/

/-- Comparison used by `enriched_leads.sort(key=lambda x: x['score'],
reverse=True)`: descending by score. -/
def leadGE (a b : ScoredLead) : Prop := b.score ≤ a.score

instance : DecidableRel leadGE := fun a b => Nat.decLe b.score a.score

instance : IsTotal ScoredLead leadGE := ⟨fun a b => Nat.le_total b.score a.score⟩

instance : IsTrans ScoredLead leadGE := ⟨fun _ _ _ h1 h2 => Nat.le_trans h2 h1⟩

/-- The sort of line 350.  CPython `list.sort` is a stable sort; for the total
preorder `leadGE` the output of any stable sort is unique, so it is modelled
by insertion sort, with stability proved below. -/
def sortLeadsByScore (leads : List ScoredLead) : List ScoredLead :=
  List.insertionSort leadGE leads

/-! ### Enrichment batch limit: `for i, lead in enumerate(leads[:30])` (lines 335-341) -/

/-- The fixed enrichment batch limit (the literal `30` at lines 337 and 340). -/
def batch_limit : Nat := 30

/-- The enrichment loop of the pipeline (lines 335-341): iterate over
`leads[:30]` appending the enrichment of each lead, with the enrichment of a
single lead abstracted as a function. -/
def enrichment_stage (enrich : RawLead → EnrichedLead) (leads : List RawLead) :
    List EnrichedLead :=
  (leads.take batch_limit).map enrich

/-! ## Lemmas and claim theorems -/

lemma score_from_eq_floor (s0 : Nat) (title location : String) (funding : List String)
    (hasPaper : Bool) :
    score_from s0 title location funding hasPaper =
      min (s0 + heuristic_floor title location funding hasPaper) 100 := by
  simp only [score_from, heuristic_floor]
  split_ifs <;> exact congrArg (fun x => min x 100) (by omega)

lemma score_from_le (s0 : Nat) (title location : String) (funding : List String)
    (hasPaper : Bool) : score_from s0 title location funding hasPaper ≤ 100 := by
  simp only [score_from]
  split_ifs <;> exact Nat.min_le_right _ _

lemma le_score_from (s0 : Nat) (title location : String) (funding : List String)
    (hasPaper : Bool) : 15 ≤ score_from s0 title location funding hasPaper := by
  simp only [score_from]
  split_ifs <;> exact le_min (by omega) (by omega)

/-- C1: every score returned by the scoring stage lies in [0,100] (scores are
naturals, so non-negativity is by type); in the maximal additive case, where
all five bonuses fire with the model unavailable (pre-clamp 30+20+15+10+40 =
115), the result is clamped to 100. -/
theorem score_within_bounds :
    (∀ (st : ExtState) (reply : LLMReply String) (p : EnrichedLead) (funding : List String),
      (calculate_score st reply p funding).1 ≤ 100) ∧
    (calculate_score ⟨false, false⟩ (.exn "boom")
        ⟨"Max Case", "Head of Toxicology", "Acme", "Boston, MA", "PubMed", true, "li", "em"⟩
        ["Acme raised a Series A"]).1 = 100 := by
  refine ⟨fun st reply p funding => ?_, by decide⟩
  exact score_from_le _ _ _ _ _

/-- C2: the final score equals the extraction-service-derived score (first
integer in the stripped response text, else 0, and 0 when no call is made)
plus the full heuristic rule-set total, clamped to 100; the heuristic floor
is added even when the model call succeeds, never replaced by it. -/
theorem score_is_model_plus_floor (st : ExtState) (reply : LLMReply String)
    (p : EnrichedLead) (funding : List String) :
    (calculate_score st reply p funding).1 =
      min ((llmScore st reply).1 +
        heuristic_floor (pyLower p.title) (pyLower p.location) funding p.hasRecentPaper) 100 := by
  simp only [calculate_score]
  exact score_from_eq_floor _ _ _ _ _

/-- C10: the +15 baseline is added unconditionally before the clamp, so every
score produced by the scoring stage is at least 15 (effective range [15,100]);
consequently a minimum-score filter with threshold at most 15 excludes
nothing from a collection of stage-produced scores. -/
theorem score_at_least_fifteen :
    (∀ (st : ExtState) (reply : LLMReply String) (p : EnrichedLead) (funding : List String),
      15 ≤ (calculate_score st reply p funding).1) ∧
    (∀ (t : Nat) (leads : List ScoredLead), t ≤ 15 → (∀ l ∈ leads, 15 ≤ l.score) →
      min_score_filter t leads = leads) := by
  constructor
  · intro st reply p funding
    simp only [calculate_score]
    exact le_score_from _ _ _ _ _
  · intro t leads ht h
    refine List.filter_eq_self.mpr (fun l hl => ?_)
    exact decide_eq_true (Nat.le_trans ht (h l hl))

/-- C10 witness: a concrete instantiation of both parts. -/
theorem score_at_least_fifteen_witness :
    15 ≤ (calculate_score ⟨false, false⟩ (.exn "e")
        ⟨"A", "B", "C", "D", "PubMed", false, "li", "em"⟩ []).1 ∧
    min_score_filter 10 [⟨"A", "B", "C", "D", "PubMed", false, "li", "em", 15⟩] =
      [⟨"A", "B", "C", "D", "PubMed", false, "li", "em", 15⟩] := by
  constructor
  · exact score_at_least_fifteen.1 ⟨false, false⟩ (.exn "e")
      ⟨"A", "B", "C", "D", "PubMed", false, "li", "em"⟩ []
  · exact score_at_least_fifteen.2 10 [⟨"A", "B", "C", "D", "PubMed", false, "li", "em", 15⟩]
      (by decide) (by decide)

lemma string_append_ne_empty (x y : String) (h : y.data ≠ []) : x ++ y ≠ "" := by
  intro he
  have hd := congrArg String.data he
  rw [String.data_append] at hd
  rcases List.append_eq_nil.mp hd with ⟨-, h2⟩
  exact h h2

lemma mk_ne_empty (l : List Char) (h : l ≠ []) : String.mk l ≠ "" :=
  fun he => h (by simpa using congrArg String.data he)

lemma string_append3_ne_empty (x y z : String) (hy : y.data ≠ []) : x ++ y ++ z ≠ "" := by
  intro he
  have hd := congrArg String.data he
  rw [String.data_append, String.data_append] at hd
  rcases List.append_eq_nil.mp hd with ⟨h1, -⟩
  exact hy (List.append_eq_nil.mp h1).2

/-- C6: when enrichment extracts no contact information, the synthesized
fallbacks are deterministic functions of (name, company): the email is
`first.last@company.com` (lowercased, spaces stripped from the company) and
the profile URL is the lowercase spaceless name under the fixed host; Jane
Doe at Acme Inc yields `jane.doe@acmeinc.com` and a URL containing
`janedoe`, and both synthesized fields are always non-empty. -/
theorem enrichment_fallback_synthesis :
    synthEmail "Jane Doe" "Acme Inc" = some "jane.doe@acmeinc.com" ∧
    (∃ pre post, synthLinkedin "Jane Doe" = pre ++ "janedoe" ++ post) ∧
    (∀ name company e, synthEmail name company = some e → e ≠ "") ∧
    (∀ name, synthLinkedin name ≠ "") ∧
    (∀ (st : ExtState) (p : RawLead) (e : String),
      synthEmail p.name p.company = some e →
      (enrich_person st (.ok ⟨none, none, none⟩) p).1.map (fun l => l.email) = some e ∧
      (enrich_person st (.ok ⟨none, none, none⟩) p).1.map (fun l => l.linkedin) =
        some (synthLinkedin p.name)) := by
  refine ⟨by decide, ⟨"https://linkedin.com/in/", "", by decide⟩, ?_, ?_, ?_⟩
  · intro name company e he
    unfold synthEmail at he
    rcases hs : pySplitWs name with _ | ⟨t, rest⟩ <;> rw [hs] at he
    · exact absurd he (by simp)
    · have : e = pyLower t ++ "." ++ pyLower (rest.getLastD t) ++ "@" ++
          pyLower (pyReplaceSpace company) ++ ".com" := by
        simpa using he.symm
      rw [this]
      exact string_append_ne_empty _ _ (by decide)
  · intro name
    unfold synthLinkedin
    intro he
    have hd := congrArg String.data he
    rw [String.data_append] at hd
    exact absurd (List.append_eq_nil.mp hd).1 (by decide)
  · intro st p e he
    by_cases hg : st.modelAvailable && !st.quota_exceeded <;>
      simp [enrich_person, llmContact, pyOrStr, hg, he]

/-- C6 witness: Jane Doe at Acme Inc through `enrich_person` with no
extracted contact info. -/
theorem enrichment_fallback_synthesis_witness :
    (enrich_person ⟨false, false⟩ (.ok ⟨none, none, none⟩)
        ⟨"Jane Doe", "Researcher", "Acme Inc", "Unknown", "Conference", false⟩).1.map
      (fun l => l.email) = some "jane.doe@acmeinc.com" :=
  (enrichment_fallback_synthesis.2.2.2.2 ⟨false, false⟩
    ⟨"Jane Doe", "Researcher", "Acme Inc", "Unknown", "Conference", false⟩
    "jane.doe@acmeinc.com" (by decide)).1

lemma stepState_of_quota (st : ExtState) (c : PipeCall) (h : st.quota_exceeded = true) :
    stepState st c = (st, false) := by
  cases c <;>
    simp [stepState, scrape_conference_attendees, enrich_person, calculate_score,
      llmNames, llmContact, llmScore, h]

/-- C3: once `quota_exceeded` is true it is never reset for the rest of the
run, and no extraction call is attempted at any of the three call sites for
any remaining sequence of pipeline steps. -/
theorem quota_flag_blocks_all_later_calls (st : ExtState) (calls : List PipeCall)
    (h : st.quota_exceeded = true) :
    traceAttempts st calls = List.replicate calls.length false ∧
    (traceFinal st calls).quota_exceeded = true := by
  induction calls generalizing st with
  | nil => exact ⟨rfl, h⟩
  | cons c cs ih =>
    have hs := stepState_of_quota st c h
    have := ih st h
    constructor
    · show (stepState st c).2 :: traceAttempts (stepState st c).1 cs = _
      rw [hs]
      simpa [List.replicate] using this.1
    · show (traceFinal (stepState st c).1 cs).quota_exceeded = true
      rw [hs]
      exact this.2

/-- C3 witness: from an exhausted state, a three-step run (one call of each
site, each with a would-succeed reply) attempts nothing and keeps the flag. -/
theorem quota_flag_blocks_all_later_calls_witness :
    traceAttempts ⟨true, true⟩
        [.names (.ok ["Ada Lovelace"]) [], .enrich (.ok ⟨none, none, none⟩)
          ⟨"Ada Lovelace", "Speaker", "Unknown", "Unknown", "Conference", false⟩,
         .score (.ok "90") ⟨"A", "B", "C", "D", "PubMed", false, "li", "em"⟩ []] =
      List.replicate 3 false ∧
    (traceFinal ⟨true, true⟩
        [.names (.ok ["Ada Lovelace"]) [], .enrich (.ok ⟨none, none, none⟩)
          ⟨"Ada Lovelace", "Speaker", "Unknown", "Unknown", "Conference", false⟩,
         .score (.ok "90") ⟨"A", "B", "C", "D", "PubMed", false, "li", "em"⟩ []]).quota_exceeded
      = true :=
  quota_flag_blocks_all_later_calls ⟨true, true⟩ _ rfl

lemma filter_score_orderedInsert (c : Nat) (a : ScoredLead) :
    ∀ l : List ScoredLead,
      (List.orderedInsert leadGE a l).filter (fun x => x.score == c) =
        (if a.score = c then [a] else []) ++ l.filter (fun x => x.score == c)
  | [] => by
    by_cases hac : a.score = c <;> simp [List.orderedInsert, beq_iff_eq, hac]
  | b :: l => by
    by_cases hab : leadGE a b
    · have hstep : List.orderedInsert leadGE a (b :: l) = a :: b :: l := by
        simp [List.orderedInsert, hab]
      rw [hstep]
      by_cases hac : a.score = c <;>
        simp [List.filter_cons, beq_iff_eq, hac]
    · have hstep : List.orderedInsert leadGE a (b :: l) =
          b :: List.orderedInsert leadGE a l := by
        simp [List.orderedInsert, hab]
      have hlt : a.score < b.score := Nat.lt_of_not_le hab
      rw [hstep, List.filter_cons, List.filter_cons,
        filter_score_orderedInsert c a l]
      by_cases hbc : b.score = c
      · have hac : ¬ a.score = c := by omega
        simp [beq_iff_eq, hbc, hac]
      · by_cases hac : a.score = c <;> simp [beq_iff_eq, hbc, hac]

lemma filter_score_insertionSort (c : Nat) :
    ∀ l : List ScoredLead,
      (List.insertionSort leadGE l).filter (fun x => x.score == c) =
        l.filter (fun x => x.score == c)
  | [] => rfl
  | a :: l => by
    show (List.orderedInsert leadGE a (List.insertionSort leadGE l)).filter _ = _
    rw [filter_score_orderedInsert, filter_score_insertionSort c l, List.filter_cons]
    by_cases hac : a.score = c <;> simp [beq_iff_eq, hac]

/-- C4: the ranking output is sorted in descending score order, and leads with
any given score value appear in the same relative order as in the input
(stability, stated as filter-invariance for every score value). -/
theorem ranking_sorted_descending_stable (leads : List ScoredLead) :
    List.Sorted leadGE (sortLeadsByScore leads) ∧
    (∀ c : Nat, (sortLeadsByScore leads).filter (fun x => x.score == c) =
      leads.filter (fun x => x.score == c)) :=
  ⟨List.sorted_insertionSort leadGE leads, fun c => filter_score_insertionSort c leads⟩

/-- C9: the enrichment stage output has length `min(len(leads), 30)`, its
i-th element is the enrichment of the i-th input lead for `i < 30`, and no
element beyond index 29 exists (leads past the limit are dropped, not passed
through). -/
theorem enrichment_batch_truncation (enrich : RawLead → EnrichedLead)
    (leads : List RawLead) :
    (enrichment_stage enrich leads).length = min leads.length 30 ∧
    (∀ i, i < 30 → (enrichment_stage enrich leads)[i]? = (leads[i]?).map enrich) ∧
    (∀ i, 30 ≤ i → (enrichment_stage enrich leads)[i]? = none) := by
  refine ⟨?_, ?_, ?_⟩
  · simp [enrichment_stage, batch_limit, Nat.min_comm]
  · intro i hi
    simp [enrichment_stage, batch_limit, List.getElem?_take, hi]
  · intro i hi
    apply List.getElem?_eq_none
    calc (enrichment_stage enrich leads).length ≤ 30 := by
          simp [enrichment_stage, batch_limit]
      _ ≤ i := hi

/-- C9 witness: 31 identical leads; the output length is 30, index 0 is the
enrichment of the first lead, index 30 is absent. -/
theorem enrichment_batch_truncation_witness :
    (enrichment_stage (fun r => ⟨r.name, r.title, r.company, r.location, r.source,
        r.hasRecentPaper, "li", "em"⟩)
      (List.replicate 31 ⟨"A", "B", "C", "D", "PubMed", false⟩)).length =
      min (List.replicate 31 (⟨"A", "B", "C", "D", "PubMed", false⟩ : RawLead)).length 30 ∧
    (enrichment_stage (fun r => ⟨r.name, r.title, r.company, r.location, r.source,
        r.hasRecentPaper, "li", "em"⟩)
      (List.replicate 31 ⟨"A", "B", "C", "D", "PubMed", false⟩))[30]? = none :=
  ⟨(enrichment_batch_truncation _ _).1, (enrichment_batch_truncation _ _).2.2 30 (by decide)⟩

lemma authorLocation_ne_empty (affil : String) : authorLocation affil ≠ "" := by
  simp only [authorLocation]
  split_ifs with h1 h2
  · exact string_append3_ne_empty _ ", " _ (by decide)
  · decide
  · decide

lemma matchCapPair_ne_nil (cs : List Char) (m rest : List Char)
    (h : matchCapPair cs = some (m, rest)) : m ≠ [] := by
  simp only [matchCapPair] at h
  split at h
  · exact absurd h (by simp)
  · split at h
    · split at h
      · exact absurd h (by simp)
      · split at h
        · split at h
          · split at h
            · exact absurd h (by simp)
            · simp only [Option.some.injEq, Prod.mk.injEq] at h
              rw [← h.1]
              simp
          · exact absurd h (by simp)
        · exact absurd h (by simp)
    · exact absurd h (by simp)

lemma findCapPairs_ne_empty : ∀ (fuel : Nat) (cs : List Char) (m : String),
    m ∈ findCapPairs fuel cs → m ≠ "" := by
  intro fuel
  induction fuel with
  | zero => intro cs m hm; simp [findCapPairs] at hm
  | succ fuel ih =>
    intro cs m hm
    cases cs with
    | nil => simp [findCapPairs] at hm
    | cons c rest =>
      rw [findCapPairs] at hm
      cases hmc : matchCapPair (c :: rest) with
      | none => rw [hmc] at hm; exact ih rest m hm
      | some pr =>
        rw [hmc] at hm
        rcases List.mem_cons.mp hm with rfl | hm2
        · exact mk_ne_empty _ (matchCapPair_ne_nil (c :: rest) pr.1 pr.2 (by rw [hmc]))
        · exact ih pr.2 m hm2

/-- C5 (amended): every citation-derived lead has a non-empty name
(`"{fore} {last}"` always contains a space), title `"Researcher"` and a
non-empty location, and its company is non-empty provided the affiliation is
empty (sentinel `"Unknown"`) or its first comma-segment is non-empty; every
conference lead built from a non-empty candidate name has all fields
non-empty, and heuristic-extracted candidate names are always non-empty.
The unamended claim fails when an affiliation starts with a comma (empty
first segment becomes the company) or when the model-returned JSON name
array contains an empty string. -/
theorem raw_lead_fields_amended :
    (∀ (a : Author) (lead : RawLead), authorLead a = some lead →
      lead.name ≠ "" ∧ lead.title ≠ "" ∧ lead.location ≠ "" ∧
      ((a.affiliation = "" ∨ (pySplitComma a.affiliation).headD "" ≠ "") →
        lead.company ≠ "")) ∧
    (∀ name : String, name ≠ "" →
      (mkConferenceLead name).name ≠ "" ∧ (mkConferenceLead name).title ≠ "" ∧
      (mkConferenceLead name).company ≠ "" ∧ (mkConferenceLead name).location ≠ "") ∧
    (∀ (fuel : Nat) (cs : List Char) (m : String), m ∈ findCapPairs fuel cs → m ≠ "") := by
  refine ⟨?_, ?_, findCapPairs_ne_empty⟩
  · intro a lead h
    match ha : a.foreName, hb : a.lastName with
    | some f, some l =>
      rw [authorLead, ha, hb] at h
      have hlead : lead = mkCitationLead (f ++ " " ++ l) a.affiliation
          (authorLocation a.affiliation) := by
        exact (Option.some.injEq _ _ ▸ h).symm
      subst hlead
      refine ⟨string_append3_ne_empty _ " " _ (by decide),
        by show ("Researcher" : String) ≠ ""; decide,
        authorLocation_ne_empty _, ?_⟩
      intro hc
      simp only [mkCitationLead]
      by_cases haf : a.affiliation = ""
      · simp [haf]
      · rcases hc with hc | hc
        · exact absurd hc haf
        · simpa [haf] using hc
    | some f, none => rw [authorLead, ha, hb] at h; exact absurd h (by simp)
    | none, some l => rw [authorLead, ha, hb] at h; exact absurd h (by simp)
    | none, none => rw [authorLead, ha, hb] at h; exact absurd h (by simp)
  · intro name hn
    exact ⟨hn, by show ("Speaker" : String) ≠ ""; decide,
      by show ("Unknown" : String) ≠ ""; decide,
      by show ("Unknown" : String) ≠ ""; decide⟩

/-- C5 counterexample: an affiliation whose first comma-segment is empty
yields a citation lead with empty company, and a model-returned name list
containing the empty string yields a conference lead with empty name. -/
theorem raw_lead_fields_counterexample :
    (authorLead ⟨some "A", some "B", ",X"⟩).map (fun l => l.company) = some "" ∧
    (scrape_conference_attendees ⟨true, false⟩ (.ok [""]) []).1.map (fun l => l.name) =
      [""] := by decide

/-- C5 witness: the amended statement instantiated at a citation lead, a
conference lead and a heuristic-extracted name. -/
theorem raw_lead_fields_amended_witness :
    (mkCitationLead "A B" ",X" (authorLocation ",X")).name ≠ "" ∧
    (mkConferenceLead "Ada Lovelace").name ≠ "" ∧
    "John Smith" ≠ "" :=
  ⟨(raw_lead_fields_amended.1 ⟨some "A", some "B", ",X"⟩
      (mkCitationLead "A B" ",X" (authorLocation ",X")) (by decide)).1,
   (raw_lead_fields_amended.2.1 "Ada Lovelace" (by decide)).1,
   raw_lead_fields_amended.2.2 17 "John Smith spoke".data "John Smith" (by decide)⟩

/-- C7 (amended): the conference branch emits at most 20 leads on the
heuristic fallback path (the deduplicated regex matches are truncated to 20),
but on the extraction-service path it emits exactly one lead per parsed name
with no cap; every emitted lead has source `"Conference"`,
`has_recent_paper = false`, and the default sentinels for the other fields.
The unamended claim (a cap of 20 on both paths) is false. -/
theorem conference_branch_amended :
    (∀ (st : ExtState) (reply : LLMReply (List String)) (snippets : List String),
      (llmNames st reply).1 = [] →
      (scrape_conference_attendees st reply snippets).1.length ≤ 20) ∧
    (∀ (st : ExtState) (reply : LLMReply (List String)) (snippets : List String),
      (llmNames st reply).1 ≠ [] →
      (scrape_conference_attendees st reply snippets).1.length =
        (llmNames st reply).1.length) ∧
    (∀ (st : ExtState) (reply : LLMReply (List String)) (snippets : List String)
       (lead : RawLead), lead ∈ (scrape_conference_attendees st reply snippets).1 →
      lead.source = "Conference" ∧ lead.hasRecentPaper = false ∧ lead.title = "Speaker" ∧
      lead.company = "Unknown" ∧ lead.location = "Unknown") := by
  refine ⟨?_, ?_, ?_⟩
  · intro st reply snippets h
    have he : (llmNames st reply).1.isEmpty = true := by simp [h]
    simp only [scrape_conference_attendees, he, if_true, List.length_map, extract_names]
    exact List.length_take_le _ _
  · intro st reply snippets h
    have he : (llmNames st reply).1.isEmpty = false := by
      simpa [List.isEmpty_iff] using h
    simp [scrape_conference_attendees, he]
  · intro st reply snippets lead hm
    simp only [scrape_conference_attendees] at hm
    rcases List.mem_map.mp hm with ⟨n, -, rfl⟩
    exact ⟨rfl, rfl, rfl, rfl, rfl⟩

/-- C7 counterexample: a parsed model reply of 21 names produces 21 conference
leads — the extraction-service path is not capped at 20. -/
theorem conference_branch_counterexample :
    ¬ ((scrape_conference_attendees ⟨true, false⟩
        (.ok ["N01", "N02", "N03", "N04", "N05", "N06", "N07", "N08", "N09", "N10",
              "N11", "N12", "N13", "N14", "N15", "N16", "N17", "N18", "N19", "N20",
              "N21"]) []).1.length ≤ 20) := by decide

/-- C7 witness: the amended statement instantiated on the fallback path, on
the model path, and at an emitted lead. -/
theorem conference_branch_amended_witness :
    (scrape_conference_attendees ⟨false, false⟩ (.ok []) ["John Smith spoke"]).1.length ≤ 20 ∧
    (scrape_conference_attendees ⟨true, false⟩ (.ok ["Ada Lovelace"]) []).1.length =
      (llmNames ⟨true, false⟩ (.ok ["Ada Lovelace"])).1.length ∧
    (mkConferenceLead "Ada Lovelace").source = "Conference" :=
  ⟨conference_branch_amended.1 ⟨false, false⟩ (.ok []) ["John Smith spoke"] (by decide),
   conference_branch_amended.2.1 ⟨true, false⟩ (.ok ["Ada Lovelace"]) [] (by decide),
   (conference_branch_amended.2.2 ⟨true, false⟩ (.ok ["Ada Lovelace"]) []
     (mkConferenceLead "Ada Lovelace") (by decide)).1⟩

/-- C8: the citation loop has no per-identifier failure isolation — a fetch
failure on one identifier aborts the whole batch with that error, producing
no leads at all, even though the same fetch function run on the remaining
identifier alone would produce a lead. -/
theorem citation_fetch_failure_aborts_batch :
    identification_loop
        (fun pmid => if pmid = 1 then .error "HTTPError" else
          .ok ⟨"Paper", [⟨some "Jane", some "Doe", "Acme Inc, Boston, MA"⟩]⟩) [1, 2] =
      .error "HTTPError" ∧
    identification_loop
        (fun pmid => if pmid = 1 then .error "HTTPError" else
          .ok ⟨"Paper", [⟨some "Jane", some "Doe", "Acme Inc, Boston, MA"⟩]⟩) [2] =
      .ok [mkCitationLead "Jane Doe" "Acme Inc, Boston, MA" "Boston, MA"] := by
  constructor <;> rfl
